import Mathlib

/-!
# Verification of the LaunchDarkly migration scripts core

Shallow embedding of the migration orchestration engine of
`ld-migration-scripts` (files `src/utils/utils.ts` and
`src/scripts/launchdarkly-migrations/migrate_between_ld_instances.ts`):
the rate governor, the conflict resolver, the semantic-patch translator,
the per-resource creation retry loops, the patch no-op detector and the
approval-request workflow.

JSON values are modelled by the inductive type `Val`; JavaScript objects
are ordered association lists (JS preserves string-key insertion order),
`JSON.stringify` equality on such values is modelled by structural
equality, and JavaScript truthiness is `valTruthy`.  Machine numbers of
the scripts are small counters, epoch-millisecond clocks and HTTP status
codes, all non-negative and far from any overflow, so they are embedded
as `Nat` (with `Int` where the code can produce a negative difference).
Network interaction is embedded by passing the sequence of HTTP
responses (status codes, headers, response items) as explicit arguments.
-/

set_option autoImplicit false

/-- A JSON value: the data manipulated by the migration scripts.
Objects keep their fields in insertion order, as JavaScript does. -/
inductive Val where
  | vNull : Val
  | vBool (b : Bool) : Val
  | vNum (n : Int) : Val
  | vStr (s : String) : Val
  | vArr (elems : List Val) : Val
  | vObj (fields : List (String × Val)) : Val
  deriving Repr

mutual

/-- Decidable structural equality of JSON values.  `JSON.stringify`
equality used by the scripts is modelled by this equality: objects are
ordered field lists (matching JS key insertion order), so stringify
equality and structural equality coincide on the model. -/
def Val.decEq : (a b : Val) → Decidable (a = b)
  | .vNull, .vNull => isTrue rfl
  | .vBool a, .vBool b =>
      if h : a = b then isTrue (by rw [h]) else isFalse (by simp [h])
  | .vNum a, .vNum b =>
      if h : a = b then isTrue (by rw [h]) else isFalse (by simp [h])
  | .vStr a, .vStr b =>
      if h : a = b then isTrue (by rw [h]) else isFalse (by simp [h])
  | .vArr as, .vArr bs =>
      match Val.decEqList as bs with
      | isTrue h => isTrue (by rw [h])
      | isFalse h => isFalse (by simp [h])
  | .vObj as, .vObj bs =>
      match Val.decEqFields as bs with
      | isTrue h => isTrue (by rw [h])
      | isFalse h => isFalse (by simp [h])
  | .vNull, .vBool _ => isFalse (by simp)
  | .vNull, .vNum _ => isFalse (by simp)
  | .vNull, .vStr _ => isFalse (by simp)
  | .vNull, .vArr _ => isFalse (by simp)
  | .vNull, .vObj _ => isFalse (by simp)
  | .vBool _, .vNull => isFalse (by simp)
  | .vBool _, .vNum _ => isFalse (by simp)
  | .vBool _, .vStr _ => isFalse (by simp)
  | .vBool _, .vArr _ => isFalse (by simp)
  | .vBool _, .vObj _ => isFalse (by simp)
  | .vNum _, .vNull => isFalse (by simp)
  | .vNum _, .vBool _ => isFalse (by simp)
  | .vNum _, .vStr _ => isFalse (by simp)
  | .vNum _, .vArr _ => isFalse (by simp)
  | .vNum _, .vObj _ => isFalse (by simp)
  | .vStr _, .vNull => isFalse (by simp)
  | .vStr _, .vBool _ => isFalse (by simp)
  | .vStr _, .vNum _ => isFalse (by simp)
  | .vStr _, .vArr _ => isFalse (by simp)
  | .vStr _, .vObj _ => isFalse (by simp)
  | .vArr _, .vNull => isFalse (by simp)
  | .vArr _, .vBool _ => isFalse (by simp)
  | .vArr _, .vNum _ => isFalse (by simp)
  | .vArr _, .vStr _ => isFalse (by simp)
  | .vArr _, .vObj _ => isFalse (by simp)
  | .vObj _, .vNull => isFalse (by simp)
  | .vObj _, .vBool _ => isFalse (by simp)
  | .vObj _, .vNum _ => isFalse (by simp)
  | .vObj _, .vStr _ => isFalse (by simp)
  | .vObj _, .vArr _ => isFalse (by simp)

/-- Decidable equality of JSON value lists. -/
def Val.decEqList : (as bs : List Val) → Decidable (as = bs)
  | [], [] => isTrue rfl
  | a :: as, b :: bs =>
      match Val.decEq a b, Val.decEqList as bs with
      | isTrue h1, isTrue h2 => isTrue (by rw [h1, h2])
      | isFalse h1, _ => isFalse (by simp [h1])
      | _, isFalse h2 => isFalse (by simp [h2])
  | [], _ :: _ => isFalse (by simp)
  | _ :: _, [] => isFalse (by simp)

/-- Decidable equality of JSON object field lists. -/
def Val.decEqFields : (as bs : List (String × Val)) → Decidable (as = bs)
  | [], [] => isTrue rfl
  | (k, a) :: as, (l, b) :: bs =>
      if hk : k = l then
        match Val.decEq a b, Val.decEqFields as bs with
        | isTrue h1, isTrue h2 => isTrue (by rw [hk, h1, h2])
        | isFalse h1, _ => isFalse (by simp [h1])
        | _, isFalse h2 => isFalse (by simp [h2])
      else isFalse (by simp [hk])
  | [], _ :: _ => isFalse (by simp)
  | _ :: _, [] => isFalse (by simp)

end

instance : DecidableEq Val := Val.decEq

/-- JavaScript truthiness of a value (`null`, `false`, `0`, `""` are falsy). -/
def valTruthy : Val → Bool
  | Val.vNull => false
  | Val.vBool b => b
  | Val.vNum n => n != 0
  | Val.vStr s => s != ""
  | Val.vArr _ => true
  | Val.vObj _ => true

/-- First binding of a key in an ordered association list. -/
def lookupStr : List (String × Val) → String → Option Val
  | [], _ => none
  | (k, w) :: rest, key => if k = key then some w else lookupStr rest key

/-- Property access `o[k]` on a JSON value: `none` models `undefined`
(absent field, or access on a non-object). -/
def objLookup (v : Val) (key : String) : Option Val :=
  match v with
  | Val.vObj fields => lookupStr fields key
  | _ => none

/-- Whether the first list is a prefix of the second. -/
def listIsPre {α : Type} [DecidableEq α] : List α → List α → Bool
  | [], _ => true
  | _ :: _, [] => false
  | a :: as, b :: bs => a = b && listIsPre as bs

/-- Whether the needle occurs as a contiguous sublist of the haystack. -/
def containsSub {α : Type} [DecidableEq α] (needle : List α) : List α → Bool
  | [] => listIsPre needle []
  | b :: bs => listIsPre needle (b :: bs) || containsSub needle bs

/-- JavaScript `s.includes(sub)`: substring test on the character lists
(an empty needle is always included). -/
def strIncludes (s sub : String) : Bool :=
  containsSub sub.data s.data

/-- JavaScript `s.split(sep)` for a single-character separator, on
character lists: `"".split(sep) = [""]`, and each separator occurrence
opens a new piece. -/
def splitChars (sep : Char) : List Char → List (List Char)
  | [] => [[]]
  | c :: rest =>
      let r := splitChars sep rest
      if c = sep then [] :: r
      else
        match r with
        | [] => [[c]]
        | h :: t => (c :: h) :: t

/-- JavaScript `path.split('/')`. -/
def strSplitOnSlash (s : String) : List String :=
  (splitChars '/' s.data).map (fun cs => String.mk cs)

-- ==================== Rate Governor (utils.ts) ====================

/-- The `RateLimitState` from `utils.ts`: per-route capacity learnt from
response headers.  All quantities are non-negative integers in the
scripts (header counters and epoch milliseconds). -/
structure RateLimitState where
  globalRemaining : Nat
  routeRemaining : Nat
  resetTime : Nat
  lastUpdated : Nat
  deriving DecidableEq, Repr

/-- The `PROACTIVE_THRESHOLD` from `utils.ts`. -/
def PROACTIVE_THRESHOLD : Nat := 3

/-- The `MIN_REQUEST_SPACING` from `utils.ts` (ms). -/
def MIN_REQUEST_SPACING : Nat := 50

/-- Ceiling division on `Nat`, modelling `Math.ceil(a / b)` for the
positive operands on which the script uses it. -/
def ceilDivNat (a b : Nat) : Nat := (a + b - 1) / b

/-- The `calculateProactiveDelay` from `utils.ts`.  The route map lookup is the
`state` argument (`none` when no response has been observed for the route);
`Date.now()` is `now`; `Math.floor(Math.random() * 100)` is `jitter`. -/
def calculateProactiveDelay (state : Option RateLimitState) (now jitter : Nat) : Nat :=
  match state with
  | none => MIN_REQUEST_SPACING
  | some s =>
    let remaining := min s.globalRemaining s.routeRemaining
    if remaining > PROACTIVE_THRESHOLD then
      MIN_REQUEST_SPACING
    else if s.resetTime > now then
      let timeUntilReset := s.resetTime - now
      let delayPerRequest := if remaining > 0 then ceilDivNat timeUntilReset remaining else timeUntilReset
      max (delayPerRequest + jitter) MIN_REQUEST_SPACING
    else
      MIN_REQUEST_SPACING

/-- The `calculateRateLimitDelay` from `utils.ts`: backoff after a 429
response.  `retryAfterHeader` is the parsed `retry-after` header
(seconds), `resetHeader` the parsed `x-ratelimit-reset` header (epoch
ms); a missing header leaves the corresponding candidate at 0. -/
def calculateRateLimitDelay (retryAfterHeader resetHeader : Option Nat) (now jitter : Nat) : Int :=
  let retryAfter : Int := match retryAfterHeader with
    | some s => (s : Int) * 1000
    | none => 0
  let rateLimitReset : Int := match resetHeader with
    | some r => (r : Int) - (now : Int)
    | none => 0
  let delayMs := max (max retryAfter rateLimitReset) 1000
  delayMs + (jitter : Int)

/-- Outcome of `rateLimitRequest` from `utils.ts`: either the process was
terminated (`Deno.exit(1)` on a 409 for the `projects` route) or a
response was returned to the caller.  `sent` lists the body of every
request dispatched, in order (the original plus one clone per 429). -/
inductive RLResult where
  | fatal (sent : List String) : RLResult
  | completed (status : Nat) (sent : List String) : RLResult
  deriving DecidableEq, Repr

/-- The `rateLimitRequest` from `utils.ts`, embedded over the sequence of
response statuses (`responses i` is the status of the `i`-th dispatch).
The recursion on 429 is unbounded in the source; it is embedded with a
`fuel` bound, `none` meaning the run is still retrying after `fuel`
dispatches. -/
def rateLimitRequestModel (route body : String) (responses : Nat → Nat) : Nat → Option RLResult
  | 0 => none
  | fuel + 1 =>
    let status := responses 0
    if status == 409 && route == "projects" then
      some (RLResult.fatal [body])
    else if status == 429 then
      match rateLimitRequestModel route body (fun n => responses (n + 1)) fuel with
      | some (RLResult.fatal sent) => some (RLResult.fatal (body :: sent))
      | some (RLResult.completed s sent) => some (RLResult.completed s (body :: sent))
      | none => none
    else
      some (RLResult.completed status [body])

-- ==================== Conflict Resolution (utils.ts) ====================

/-- The `ConflictResolution` from `utils.ts`.  `resourceType` is one of
`"flag" | "segment" | "project"`; the source field `conflictPrefix` is
embedded as `conflictPrefixValue`. -/
structure ConflictResolution where
  originalKey : String
  resolvedKey : String
  resourceType : String
  conflictPrefixValue : String
  deriving DecidableEq, Repr

/-- The `applyConflictPrefix` from `utils.ts`: prepend the configured prefix
to a resource key (template literal `prefix + originalKey`). -/
def applyConflictPrefixKey (originalKey pfx : String) : String :=
  pfx ++ originalKey

/-- One step of the `groupConflictsByType` reducer:
`acc[ty] = (acc[ty] || 0) + 1` on a JS object, which appends a fresh key
at the end (JS string keys keep insertion order). -/
def bumpCount : List (String × Nat) → String → List (String × Nat)
  | [], ty => [(ty, 1)]
  | (k, c) :: rest, ty =>
      if k = ty then (k, c + 1) :: rest else (k, c) :: bumpCount rest ty

/-- The `groupConflictsByType` from `utils.ts`. -/
def groupConflictsByType (resolutions : List ConflictResolution) : List (String × Nat) :=
  resolutions.foldl (fun acc r => bumpCount acc r.resourceType) []

/-- The `formatTypeCountLine` from `utils.ts`. -/
def formatTypeCountLine (tc : String × Nat) : String :=
  "  - " ++ tc.1 ++ ": " ++ toString tc.2

/-- The `formatResolutionLine` from `utils.ts` (the separator between the two
keys is the arrow character of the source template literal). -/
def formatResolutionLine (r : ConflictResolution) : String :=
  "  - " ++ r.resourceType ++ ": \"" ++ r.originalKey ++ "\" → \"" ++ r.resolvedKey ++ "\""

/-- The `'='.repeat(60)` used by the report. -/
def reportDivider : String := String.mk (List.replicate 60 '=')

/-- The `createReportHeader` from `utils.ts`. -/
def createReportHeader (totalCount : Nat) : List String :=
  ["\n" ++ reportDivider,
   "CONFLICT RESOLUTION REPORT",
   reportDivider,
   "Total conflicts resolved: " ++ toString totalCount,
   ""]

/-- The `createByTypeSection` from `utils.ts`. -/
def createByTypeSection (byType : List (String × Nat)) : List String :=
  "Conflicts by resource type:" :: byType.map formatTypeCountLine ++ [""]

/-- The `createResolutionsSection` from `utils.ts`. -/
def createResolutionsSection (resolutions : List ConflictResolution) : List String :=
  "Conflict resolutions:" :: resolutions.map formatResolutionLine

/-- The line list assembled by `generateConflictReport` in the non-empty
case (`reportLines` in the source). -/
def conflictReportLines (resolutions : List ConflictResolution) : List String :=
  createReportHeader resolutions.length
    ++ createByTypeSection (groupConflictsByType resolutions)
    ++ createResolutionsSection resolutions
    ++ [reportDivider ++ "\n"]

/-- The `generateConflictReport` from `utils.ts`. -/
def generateConflictReport (resolutions : List ConflictResolution) : String :=
  if resolutions.isEmpty then
    "No conflicts encountered during migration."
  else
    String.intercalate "\n" (conflictReportLines resolutions)

/-- The `ConflictTracker` from `utils.ts`: its state is the ordered list of
recorded resolutions. -/
structure ConflictTracker where
  resolutions : List ConflictResolution
  deriving DecidableEq, Repr

/-- The `ConflictTracker.addResolution`: `this.resolutions.push(resolution)`. -/
def ConflictTracker.addResolution (t : ConflictTracker) (r : ConflictResolution) : ConflictTracker :=
  { resolutions := t.resolutions ++ [r] }

/-- The `ConflictTracker.getResolutions`: returns a copy of the list. -/
def ConflictTracker.getResolutions (t : ConflictTracker) : List ConflictResolution :=
  t.resolutions

/-- The `ConflictTracker.getReport`: the method returns a string and performs
no state mutation, embedded as a state-passing function returning the
report together with the (unchanged) tracker state. -/
def ConflictTracker.getReport (t : ConflictTracker) : String × ConflictTracker :=
  (generateConflictReport t.resolutions, t)

-- ========== Semantic Patch Conversion (migrate_between_ld_instances.ts) ==========

/-- JS object spread update `{...obj, key: v}`: an existing binding keeps
its position and gets the new value, a fresh key is appended at the end. -/
def setField : List (String × Val) → String → Val → List (String × Val)
  | [], key, v => [(key, v)]
  | (k, w) :: rest, key, v =>
      if k = key then (k, v) :: rest else (k, w) :: setField rest key v

/-- Removal of the first binding of a key from an object. -/
def removeField : List (String × Val) → String → List (String × Val)
  | [], _ => []
  | (k, w) :: rest, key => if k = key then rest else (k, w) :: removeField rest key

/-- Generic first-match lookup in a string-keyed association list. -/
def assocLookup {α : Type} : List (String × α) → String → Option α
  | [], _ => none
  | (k, w) :: rest, key => if k = key then some w else assocLookup rest key

/-- JS truthiness filter on an optional string: `undefined` and `""` are
falsy (`const field = ...; if (!field) ...`, `variationId ? ... : null`). -/
def truthyStr : Option String → Option String
  | some s => if s == "" then none else some s
  | none => none

/-- A destination flag variation as fetched from the API.  Only the
server-assigned identifier `_id` matters to the translator; it is absent
(`none`) on payloads that never went through the destination API. -/
structure Variation where
  id : Option String
  value : Val
  deriving DecidableEq, Repr

/-- The `createVariationMapper`: `(index) => variations[index]?._id`.
A negative or out-of-range index, or a variation without `_id`, yields
`undefined`. -/
def createVariationMapper (variations : List Variation) : Int → Option String :=
  fun index =>
    if index < 0 then none
    else
      match variations.get? index.toNat with
      | some v => v.id
      | none => none

/-- The `getVariationId(x)` where `x` is a JSON value taken from a patch:
JS array indexing by a non-number gives `undefined`. -/
def getVariationIdVal (getVariationId : Int → Option String) (idx : Val) : Option String :=
  match idx with
  | Val.vNum n => getVariationId n
  | _ => none

/-- The `extractFieldFromPath`: split the JSON-patch path on `/`, find the
first `environments` component, return the component two places later
(the environment field name).  `none` models both the source's `null`
(no `environments` component) and `undefined` (index out of range). -/
def extractFieldFromPath (path : String) : Option String :=
  let pathParts := strSplitOnSlash path
  match pathParts.indexOf? "environments" with
  | some envIndex => pathParts.get? (envIndex + 2)
  | none => none

/-- The per-entry map of `convertRolloutVariations`:
`{...v, variation: getVariationId(v.variation) || v.variation}` (the `||`
falls back to the raw source index when the id does not resolve). -/
def mapRolloutVariationEntry (getVariationId : Int → Option String) (v : Val) : Val :=
  match v with
  | Val.vObj fields =>
      match lookupStr fields "variation" with
      | some idx =>
          let newVar :=
            match truthyStr (getVariationIdVal getVariationId idx) with
            | some id => Val.vStr id
            | none => idx
          Val.vObj (setField fields "variation" newVar)
      | none => Val.vObj fields
  | other => other

/-- The `convertRolloutVariations`: rewrite each rollout variation index to
the destination identifier.  A rollout without a `variations` array is
returned unchanged (the optional-chained `.map` gives `undefined`, which
carries no JSON content). -/
def convertRolloutVariations (rollout : Val) (getVariationId : Int → Option String) : Val :=
  match rollout with
  | Val.vObj fields =>
      match lookupStr fields "variations" with
      | some (Val.vArr vs) =>
          Val.vObj (setField fields "variations"
            (Val.vArr (vs.map (mapRolloutVariationEntry getVariationId))))
      | _ => Val.vObj fields
  | other => other

/-- The `convertOnOffInstruction`: `{kind: value ? 'turnFlagOn' : 'turnFlagOff'}`. -/
def convertOnOffInstruction (value : Val) : Val :=
  Val.vObj [("kind", Val.vStr (if valTruthy value then "turnFlagOn" else "turnFlagOff"))]

/-- The `convertOffVariationInstruction`: emits `updateOffVariation` only when
the variation index resolves to a truthy identifier. -/
def convertOffVariationInstruction (value : Val) (getVariationId : Int → Option String) : Option Val :=
  (truthyStr (getVariationIdVal getVariationId value)).map
    (fun variationId =>
      Val.vObj [("kind", Val.vStr "updateOffVariation"), ("variationId", Val.vStr variationId)])

/-- The `convertFallthroughInstruction`.  The source guard is
`value.variation !== undefined`, so a present (even `null`) `variation`
field takes the first branch; the instruction is returned only when a
`variationId` or a `rollout` was attached. -/
def convertFallthroughInstruction (value : Val) (getVariationId : Int → Option String) : Option Val :=
  match objLookup value "variation" with
  | some idx =>
      (truthyStr (getVariationIdVal getVariationId idx)).map
        (fun variationId =>
          Val.vObj [("kind", Val.vStr "updateFallthroughVariationOrRollout"),
                    ("variationId", Val.vStr variationId)])
  | none =>
      match objLookup value "rollout" with
      | some rollout =>
          if valTruthy rollout then
            some (Val.vObj [("kind", Val.vStr "updateFallthroughVariationOrRollout"),
                            ("rollout", convertRolloutVariations rollout getVariationId)])
          else none
      | none => none

/-- A JSON-patch operation (`buildPatch` in `utils.ts` produces
`{path, op, value}`). -/
structure PatchOp where
  path : String
  op : String
  value : Val
  deriving DecidableEq, Repr

/-- The `convertRuleInstruction`: only an `add` whose path contains the
rules-append marker (`"rules"` followed by slash-dash) becomes an
`addRule` instruction (with `clauses: patch.value.clauses || []`,
an optional description, and either a resolved variation id or a
converted rollout); anything else yields `null`. -/
def convertRuleInstruction (patch : PatchOp) (getVariationId : Int → Option String) : Option Val :=
  if patch.op == "add" && strIncludes patch.path "rules/-" then
    let clausesVal :=
      match objLookup patch.value "clauses" with
      | some c => if valTruthy c then c else Val.vArr []
      | none => Val.vArr []
    let base := [("kind", Val.vStr "addRule"), ("clauses", clausesVal)]
    let base1 :=
      match objLookup patch.value "description" with
      | some d => if valTruthy d then base ++ [("description", d)] else base
      | none => base
    let fields :=
      match objLookup patch.value "variation" with
      | some idx =>
          match truthyStr (getVariationIdVal getVariationId idx) with
          | some variationId => base1 ++ [("variationId", Val.vStr variationId)]
          | none => base1
      | none =>
          match objLookup patch.value "rollout" with
          | some rollout =>
              if valTruthy rollout then
                base1 ++ [("rollout", convertRolloutVariations rollout getVariationId)]
              else base1
          | none => base1
    some (Val.vObj fields)
  else none

/-- Result of `convertPatchToSemanticInstruction`. -/
structure PatchConvResult where
  instruction : Option Val
  shouldSkip : Bool
  deriving DecidableEq, Repr

/-- The `convertPatchToSemanticInstruction`: dispatch on the environment field
extracted from the path.  A falsy field gives `{null, shouldSkip: false}`;
the explicit `trackEvents` case and the default case coincide. -/
def convertPatchToSemanticInstruction (patch : PatchOp) (getVariationId : Int → Option String) : PatchConvResult :=
  match truthyStr (extractFieldFromPath patch.path) with
  | none => ⟨none, false⟩
  | some field =>
      if field == "on" then ⟨some (convertOnOffInstruction patch.value), false⟩
      else if field == "offVariation" then ⟨convertOffVariationInstruction patch.value getVariationId, false⟩
      else if field == "fallthrough" then ⟨convertFallthroughInstruction patch.value getVariationId, false⟩
      else if field == "rules" then ⟨convertRuleInstruction patch getVariationId, false⟩
      else if field == "trackEvents" then ⟨none, true⟩
      else ⟨none, true⟩

/-- Insertion-ordered set insertion: `Set.add` followed by `Array.from`
preserves first-insertion order, so the skipped-fields set is an ordered
duplicate-free list. -/
def insertIfAbsent (l : List String) (s : String) : List String :=
  if s ∈ l then l else l ++ [s]

/-- Result of `convertToSemanticPatch`. -/
structure ConversionResult where
  instructions : List Val
  skippedFields : List String
  deriving DecidableEq, Repr

/-- The body of the `reduce` in `convertToSemanticPatch`, accumulating
the instruction list and the skipped-field set. -/
def convStep (getVariationId : Int → Option String) (acc : List Val × List String) (patch : PatchOp) : List Val × List String :=
  let r := convertPatchToSemanticInstruction patch getVariationId
  let skipped :=
    if r.shouldSkip then
      match truthyStr (extractFieldFromPath patch.path) with
      | some field => insertIfAbsent acc.2 field
      | none => acc.2
    else acc.2
  let instrs :=
    match r.instruction with
    | some instruction => acc.1 ++ [instruction]
    | none => acc.1
  (instrs, skipped)

/-- The `convertToSemanticPatch` from `migrate_between_ld_instances.ts`.
(`envKey` is a parameter of the source function that its body never
reads.) -/
def convertToSemanticPatch (jsonPatches : List PatchOp) (envKey : String) (variations : List Variation) : ConversionResult :=
  let getVariationId := createVariationMapper variations
  let acc := jsonPatches.foldl (convStep getVariationId) ([], [])
  { instructions := acc.1, skippedFields := acc.2 }

-- ========== Patch no-op detection (migrate_between_ld_instances.ts) ==========

/-- The `currentEnvConfig.rules || []` in the `add`/`rules` comparison. -/
def rulesOrEmptyArr (cfg : List (String × Val)) : Val :=
  match lookupStr cfg "rules" with
  | some v => if valTruthy v then v else Val.vArr []
  | none => Val.vArr []

/-- The per-operation check inside `wouldPatchChangeEnvironment`'s loop:
`true` means the loop would `return true` for this operation (a change is
detected).  The `!==` and `JSON.stringify` comparisons of the source are
structural (in)equality on the model.  Note the source reads the field at
raw path position 3 — it does not search for an `environments` component
here — and a `replace` of any field other than `on` / `offVariation` /
`fallthrough` falls through every comparison, detecting no change. -/
def patchOpDetectsChange (cfg : List (String × Val)) (patch : PatchOp) : Bool :=
  let pathParts := strSplitOnSlash patch.path
  if pathParts.length < 4 then false
  else
    let field := pathParts.getD 3 ""
    let currentValue := lookupStr cfg field
    match patch.op with
    | "replace" =>
        if field == "offVariation" || field == "on" then
          currentValue != some patch.value
        else if field == "fallthrough" then
          currentValue != some patch.value
        else false
    | "add" =>
        if field == "rules" then rulesOrEmptyArr cfg != patch.value
        else true
    | "remove" =>
        match currentValue with
        | none => false
        | some Val.vNull => false
        | some _ => true
    | _ => true

/-- The `wouldPatchChangeEnvironment` from `migrate_between_ld_instances.ts`:
`true` when some operation is detected as a change (the source loop has a
single early `return true`, so it is `List.any`); a missing environment
configuration always counts as "changes needed".  The `variations`
parameter exists in the source signature but is never read. -/
def wouldPatchChangeEnvironment (currentEnvConfig : Option (List (String × Val)))
    (patchOperations : List PatchOp) (variationsUnread : List Variation) : Bool :=
  match currentEnvConfig with
  | none => true
  | some cfg => patchOperations.any (patchOpDetectsChange cfg)

/-- The send/skip gate at the top of `makePatchCall`: the PATCH request is
dispatched iff `wouldPatchChangeEnvironment` reports a change for
`destinationFlag?.environments?.[env]`. -/
def makePatchCallSends (destinationFlagEnvs : Option (List (String × List (String × Val))))
    (env : String) (patchReq : List PatchOp) (variations : List Variation) : Bool :=
  let currentEnvConfig :=
    match destinationFlagEnvs with
    | some envs => assocLookup envs env
    | none => none
  wouldPatchChangeEnvironment currentEnvConfig patchReq variations

/-- Reference semantics, following the spec's words, of one JSON-patch
operation applied to an environment configuration object: `replace` sets
the addressed field, `add` at the rules-append marker appends the value to the rules
array, any other `add` sets the field, `remove` deletes it.  This is the
claim's notion of an operation "changing" the destination environment
configuration (an operation is a no-op iff applying it returns the
configuration unchanged); it is defined from the spec, not from the code. -/
def specApplyPatchOp (cfg : List (String × Val)) (p : PatchOp) : List (String × Val) :=
  let pathParts := strSplitOnSlash p.path
  if pathParts.length < 4 then cfg
  else
    let field := pathParts.getD 3 ""
    match p.op with
    | "replace" => setField cfg field p.value
    | "add" =>
        if field == "rules" && strIncludes p.path "rules/-" then
          let current :=
            match lookupStr cfg "rules" with
            | some (Val.vArr xs) => xs
            | _ => []
          setField cfg "rules" (Val.vArr (current ++ [p.value]))
        else setField cfg field p.value
    | "remove" => removeField cfg field
    | _ => cfg

-- ========== Resource creation retry loops (migrate_between_ld_instances.ts) ==========

/-- Observable actions of a creation loop, in order: a conflict
resolution recorded with the `ConflictTracker`, or a creation POST of a
key answered with a status. -/
inductive CreationEvent where
  | resolved (originalKey resolvedKey : String)
  | posted (key : String) (status : Nat)
  deriving DecidableEq, Repr

/-- Result of a segment creation loop run. -/
structure CreationOutcome where
  trace : List CreationEvent
  created : Bool
  finalKey : String
  deriving DecidableEq, Repr

/-- The segment `while (!segmentCreated && attemptCount < 2)` loop.
`remaining` is `2 - attemptCount` (the source increments `attemptCount`
at the top of each iteration and allows the prefixed retry only when
`attemptCount === 1`, i.e. `attemptsDone == 0` here); `statuses i` is the
status of the `i`-th creation POST. -/
def segmentCreateLoopAux (pfx : Option String) (origKey : String) (statuses : Nat → Nat) :
    Nat → Nat → String → List CreationEvent → CreationOutcome
  | 0, _, segmentKey, trace => ⟨trace, false, segmentKey⟩
  | remaining + 1, attemptsDone, segmentKey, trace =>
      let status := statuses attemptsDone
      let trace1 := trace ++ [CreationEvent.posted segmentKey status]
      if status == 201 || status == 200 then ⟨trace1, true, segmentKey⟩
      else if status == 409 then
        match pfx with
        | some p =>
            if attemptsDone == 0 then
              let newKey := applyConflictPrefixKey origKey p
              segmentCreateLoopAux pfx origKey statuses remaining (attemptsDone + 1)
                newKey (trace1 ++ [CreationEvent.resolved origKey newKey])
            else ⟨trace1, true, segmentKey⟩
        | none => ⟨trace1, true, segmentKey⟩
      else ⟨trace1, false, segmentKey⟩

/-- Segment creation for one segment: at most two POST attempts starting
from the original key. -/
def segmentCreateLoop (pfx : Option String) (segKey : String) (statuses : Nat → Nat) : CreationOutcome :=
  segmentCreateLoopAux pfx segKey statuses 2 0 segKey []

/-- The mutable locals of the flag creation block
(`flagKey`, `flagCreated`, `createdFlagKey`, `flagAlreadyExisted`)
together with the observable event trace. -/
structure FlagProcessState where
  flagKey : String
  flagCreated : Bool
  createdFlagKey : String
  flagAlreadyExisted : Bool
  trace : List CreationEvent
  deriving DecidableEq, Repr

/-- The flag `while (!flagCreated && attemptCount < 2)` loop.  The POST is
guarded by `if (!flagAlreadyExisted)`; on a first-attempt 409 with a
configured prefix the key is re-derived from the original key, a
resolution is recorded, and the loop retries; on a later 409 the flag is
treated as existing and the loop proceeds to patching. -/
def flagCreateLoopAux (pfx : Option String) (origKey : String) (statuses : Nat → Nat) :
    Nat → Nat → FlagProcessState → FlagProcessState
  | 0, _, st => st
  | remaining + 1, attemptsDone, st =>
      if st.flagCreated then st
      else if st.flagAlreadyExisted then
        flagCreateLoopAux pfx origKey statuses remaining (attemptsDone + 1) st
      else
        let status := statuses attemptsDone
        let trace1 := st.trace ++ [CreationEvent.posted st.flagKey status]
        if status == 200 || status == 201 then
          { st with trace := trace1, flagCreated := true, createdFlagKey := st.flagKey }
        else if status == 409 then
          match pfx with
          | some p =>
              if attemptsDone == 0 then
                let newKey := applyConflictPrefixKey origKey p
                flagCreateLoopAux pfx origKey statuses remaining (attemptsDone + 1)
                  { st with flagKey := newKey, flagAlreadyExisted := false,
                            trace := trace1 ++ [CreationEvent.resolved origKey newKey] }
              else { st with trace := trace1, flagCreated := true, createdFlagKey := st.flagKey }
          | none => { st with trace := trace1, flagCreated := true, createdFlagKey := st.flagKey }
        else { st with trace := trace1 }

/-- The flag existence pre-check followed by the creation loop.
`checkStatus` is the status of the `GET flags/{proj}/{key}` lookup
(`none` when the lookup threw): on 200 with a prefix configured the key
is prefixed and a resolution is recorded before any POST; on 200 without
a prefix the flag is marked as already existing (no POST at all); on 404,
any other status, or an exception, creation proceeds with the original
key. -/
def flagMigrationProcess (pfx : Option String) (origKey : String)
    (checkStatus : Option Nat) (statuses : Nat → Nat) : FlagProcessState :=
  let init : FlagProcessState := ⟨origKey, false, origKey, false, []⟩
  let st :=
    match checkStatus with
    | some 200 =>
        match pfx with
        | some p =>
            let newKey := applyConflictPrefixKey origKey p
            { init with flagKey := newKey, flagAlreadyExisted := false,
                        trace := [CreationEvent.resolved origKey newKey] }
        | none =>
            { init with flagCreated := true, flagAlreadyExisted := true,
                        createdFlagKey := origKey }
    | some 404 => { init with flagAlreadyExisted := false }
    | _ => init
  flagCreateLoopAux pfx origKey statuses 2 0 st

-- ========== Approval request workflow (migrate_between_ld_instances.ts) ==========

/-- An approval request as listed by the API (`_id` is `reqId`). -/
structure ApprovalRequestInfo where
  reqId : String
  status : String
  deriving DecidableEq, Repr

/-- The `isActiveApprovalRequest`: status in `['pending','scheduled','failed']`. -/
def isActiveApprovalRequest (request : ApprovalRequestInfo) : Bool :=
  ["pending", "scheduled", "failed"].contains request.status

/-- The `findActiveApprovalRequests`: on a non-200 listing response the
function returns `[]`; otherwise the listed items filtered to the active
ones. -/
def findActiveApprovalRequests (listStatus : Nat) (items : List ApprovalRequestInfo) :
    List ApprovalRequestInfo :=
  if listStatus != 200 then [] else items.filter isActiveApprovalRequest

/-- Observable outcome of `handleApprovalWorkflow`: how many
approval-request creation POSTs were sent, which
`(flag, env, skippedFields)` entries were pushed to
`approvalRequestsCreated`, and whether the flag was added to
`flagsWithErrors`. -/
structure ApprovalOutcome where
  createPosts : Nat
  tracked : List (String × String × List String)
  flagErrorAdded : Bool
  deriving DecidableEq, Repr

/-- The `handleApprovalWorkflow` (the 405 fallback of `makePatchCall`):
query existing approval requests first; when an active one exists record
the pair and stop; otherwise translate the patch, skip when no
instruction survives, and create one approval request (tracked on 2xx,
error-flagged otherwise).  `listStatus`/`items` describe the listing
response, `postStatus` the creation response. -/
def handleApprovalWorkflow (flagKey env : String) (listStatus : Nat)
    (items : List ApprovalRequestInfo) (patchReq : List PatchOp)
    (variations : List Variation) (postStatus : Nat) : ApprovalOutcome :=
  let activeApprovals := findActiveApprovalRequests listStatus items
  if activeApprovals.length > 0 then
    { createPosts := 0, tracked := [(flagKey, env, [])], flagErrorAdded := false }
  else
    let conversionResult := convertToSemanticPatch patchReq env variations
    if conversionResult.instructions.length == 0 then
      { createPosts := 0, tracked := [], flagErrorAdded := false }
    else if 200 ≤ postStatus ∧ postStatus < 300 then
      { createPosts := 1, tracked := [(flagKey, env, conversionResult.skippedFields)],
        flagErrorAdded := false }
    else
      { createPosts := 1, tracked := [], flagErrorAdded := true }

-- ==================== View management (utils.ts) ====================

/-- The `ViewOperationResult` from `utils.ts`. -/
structure ViewOperationResult where
  success : Bool
  error : Option String
  deriving DecidableEq, Repr

/-- The `isViewCreationSuccess` from `utils.ts`: 200, 201 and 409 all count
as success. -/
def isViewCreationSuccess (status : Nat) : Bool :=
  status == 200 || status == 201 || status == 409

/-- The `createView` from `utils.ts`, as a function of the creation POST's
response (`errorText` is the response body text used by
`createErrorResult`). -/
def createViewModel (postStatus : Nat) (errorText : String) : ViewOperationResult :=
  if isViewCreationSuccess postStatus then { success := true, error := none }
  else { success := false, error := some ("HTTP " ++ toString postStatus ++ ": " ++ errorText) }

/-- Outcome of the orchestrator's per-view step: number of view-creation
POSTs sent, the view operation result, and the conflict tracker state
afterwards. -/
structure ViewStepOutcome where
  posts : Nat
  result : ViewOperationResult
  tracker : ConflictTracker
  deriving DecidableEq, Repr

/-- The orchestrator's per-view handling: `checkViewExists`, then at most
one `createView` call; the view path has no conflict-prefix retry and
never touches the `ConflictTracker`. -/
def migrateViewStep (viewExists : Bool) (postStatus : Nat) (errorText : String)
    (tracker : ConflictTracker) : ViewStepOutcome :=
  if viewExists then
    { posts := 0, result := { success := true, error := none }, tracker := tracker }
  else
    { posts := 1, result := createViewModel postStatus errorText, tracker := tracker }

-- ========== Spec-side notions used to state the claims ==========

/-- Spec-side statement of when the translator emits exactly one
instruction for an operation: the truthy environment field is `on`
(always emits), `offVariation` with a resolving index, `fallthrough`
with a resolving direct variation or (when no `variation` key is
present) a truthy rollout, or a rules append. -/
def specEmitsInstruction (getVariationId : Int → Option String) (p : PatchOp) : Bool :=
  match truthyStr (extractFieldFromPath p.path) with
  | none => false
  | some field =>
      if field == "on" then true
      else if field == "offVariation" then
        (truthyStr (getVariationIdVal getVariationId p.value)).isSome
      else if field == "fallthrough" then
        match objLookup p.value "variation" with
        | some idx => (truthyStr (getVariationIdVal getVariationId idx)).isSome
        | none =>
            match objLookup p.value "rollout" with
            | some rollout => valTruthy rollout
            | none => false
      else if field == "rules" then p.op == "add" && strIncludes p.path "rules/-"
      else false

/-- Spec-side statement of when an operation causes a field name to be
recorded in `skippedFields`: the operation's truthy environment field is
`f`, and `f` is none of the four dispatched field names. -/
def specSkipRecorded (p : PatchOp) (f : String) : Bool :=
  truthyStr (extractFieldFromPath p.path) == some f &&
  !(f == "on" || f == "offVariation" || f == "fallthrough" || f == "rules")

/-- The supported set named by claim C1: field in
`{on, offVariation, fallthrough}`, or `rules` appended at the
rules-append marker. -/
def claimSupportedOperation (p : PatchOp) (field : String) : Prop :=
  field = "on" ∨ field = "offVariation" ∨ field = "fallthrough" ∨
  (field = "rules" ∧ p.op = "add" ∧ strIncludes p.path "rules/-" = true)

instance (p : PatchOp) (field : String) : Decidable (claimSupportedOperation p field) := by
  unfold claimSupportedOperation
  infer_instance

/-- Hypothesis of the amended C2: a `replace` of one of the environment
fields that the no-op detector actually compares, addressed by a
four-component JSON-patch path `/environments/{env}/{field}`. -/
def replaceOnComparedField (p : PatchOp) : Prop :=
  p.op = "replace" ∧ (strSplitOnSlash p.path).length = 4 ∧
  ((strSplitOnSlash p.path).getD 3 "" = "on" ∨ (strSplitOnSlash p.path).getD 3 "" = "offVariation" ∨
   (strSplitOnSlash p.path).getD 3 "" = "fallthrough")

instance (p : PatchOp) : Decidable (replaceOnComparedField p) := by
  unfold replaceOnComparedField
  infer_instance

/-- The creation POST events of a trace, in order. -/
def postedEvents (trace : List CreationEvent) : List CreationEvent :=
  trace.filter (fun e => match e with | CreationEvent.posted _ _ => true | _ => false)

/-- The recorded conflict-resolution events of a trace, in order. -/
def resolvedEvents (trace : List CreationEvent) : List CreationEvent :=
  trace.filter (fun e => match e with | CreationEvent.resolved _ _ => true | _ => false)

/-- The keys of the creation POSTs in a trace, in order. -/
def postedKeys (trace : List CreationEvent) : List String :=
  trace.filterMap (fun e => match e with | CreationEvent.posted k _ => some k | _ => none)

-- ==================== Helper lemmas ====================

/-- A run of `rateLimitRequest` whose first `k` responses are 429 and
whose `k`-th response is a returnable status completes with that status
after exactly `k + 1` dispatches of the same body. -/
theorem rateLimitRequestModel_completed (route body : String) :
    ∀ (k fuel : Nat) (responses : Nat → Nat),
      (∀ i, i < k → responses i = 429) → responses k ≠ 429 →
      ¬(responses k = 409 ∧ route = "projects") → k < fuel →
      rateLimitRequestModel route body responses fuel =
        some (RLResult.completed (responses k) (List.replicate (k + 1) body)) := by
  intro k
  induction k with
  | zero =>
      intro fuel responses _h429 hne hnf hk
      match fuel, hk with
      | fuel + 1, _ =>
        unfold rateLimitRequestModel
        have h1 : (responses 0 == 409 && route == "projects") = false := by
          rcases eq_or_ne (responses 0) 409 with h | h
          · have : route ≠ "projects" := fun hr => hnf ⟨h, hr⟩
            simp [this]
          · simp [h]
        have h2 : (responses 0 == 429) = false := by simp [hne]
        simp [h1, h2]
  | succ k ih =>
      intro fuel responses h429 hne hnf hk
      match fuel, hk with
      | fuel + 1, hk =>
        unfold rateLimitRequestModel
        have h0 : responses 0 = 429 := h429 0 (Nat.succ_pos k)
        have h1 : (responses 0 == 409 && route == "projects") = false := by simp [h0]
        have h2 : (responses 0 == 429) = true := by simp [h0]
        have hrec := ih fuel (fun n => responses (n + 1))
          (fun i hi => h429 (i + 1) (Nat.succ_lt_succ hi)) hne hnf (Nat.lt_of_succ_lt_succ hk)
        simp [h1, h2, hrec, List.replicate_succ]

/-- Under permanently rate-limited responses the retry recursion never
returns: no finite dispatch budget completes the run (the source has no
retry cap). -/
theorem rateLimitRequestModel_unbounded (route body : String) :
    ∀ fuel : Nat, rateLimitRequestModel route body (fun _ => 429) fuel = none := by
  intro fuel
  induction fuel with
  | zero => rfl
  | succ fuel ih =>
      unfold rateLimitRequestModel
      simp [ih]

/-- A fatal outcome (process termination) can only arise on the
`projects` route. -/
theorem rateLimitRequestModel_fatal_route (body : String) :
    ∀ (fuel : Nat) (route : String) (responses : Nat → Nat) (sent : List String),
      rateLimitRequestModel route body responses fuel = some (RLResult.fatal sent) →
      route = "projects" := by
  intro fuel
  induction fuel with
  | zero => intro route responses sent h; simp [rateLimitRequestModel] at h
  | succ fuel ih =>
      intro route responses sent h
      unfold rateLimitRequestModel at h
      by_cases h1 : (responses 0 == 409 && route == "projects") = true
      · have := (Bool.and_eq_true _ _).mp h1
        exact eq_of_beq this.2
      · rw [Bool.not_eq_true] at h1
        rw [if_neg (by simp [h1])] at h
        by_cases h2 : (responses 0 == 429) = true
        · rw [if_pos h2] at h
          rcases hrec : rateLimitRequestModel route body (fun n => responses (n + 1)) fuel with _ | r
          · rw [hrec] at h; simp at h
          · rw [hrec] at h
            cases r with
            | fatal s => exact ih route (fun n => responses (n + 1)) s hrec
            | completed st s => simp at h
        · rw [if_neg h2] at h
          simp at h

-- ==================== Claim theorems ====================

/-- Claim C5 (amended).  For every recorded rate-limit state and jitter in
[0, 100): with no recorded state, or when `min(globalRemaining,
routeRemaining) > PROACTIVE_THRESHOLD`, or when the reset time has
passed, the proactive delay is the fixed minimum spacing (50 ms); when
`0 < remaining ≤ PROACTIVE_THRESHOLD` and the reset time is in the
future the delay is `ceil((resetTime - now) / remaining) + jitter`
floored at the minimum spacing; when `remaining = 0` and the reset time
is in the future the delay is `(resetTime - now) + jitter` floored at
the minimum spacing (the whole time until reset, not a ceiling
quotient). -/
theorem c5_proactive_delay_characterization (s : RateLimitState) (now jitter : Nat)
    (hj : jitter < 100) :
    calculateProactiveDelay none now jitter = MIN_REQUEST_SPACING ∧
    (min s.globalRemaining s.routeRemaining > PROACTIVE_THRESHOLD →
      calculateProactiveDelay (some s) now jitter = MIN_REQUEST_SPACING) ∧
    (min s.globalRemaining s.routeRemaining ≤ PROACTIVE_THRESHOLD → s.resetTime ≤ now →
      calculateProactiveDelay (some s) now jitter = MIN_REQUEST_SPACING) ∧
    (min s.globalRemaining s.routeRemaining ≤ PROACTIVE_THRESHOLD → now < s.resetTime →
      0 < min s.globalRemaining s.routeRemaining →
      calculateProactiveDelay (some s) now jitter =
        max (ceilDivNat (s.resetTime - now) (min s.globalRemaining s.routeRemaining) + jitter)
          MIN_REQUEST_SPACING) ∧
    (min s.globalRemaining s.routeRemaining = 0 → now < s.resetTime →
      calculateProactiveDelay (some s) now jitter =
        max ((s.resetTime - now) + jitter) MIN_REQUEST_SPACING) := by
  refine ⟨rfl, ?_, ?_, ?_, ?_⟩
  · intro h
    simp only [calculateProactiveDelay]
    rw [if_pos h]
  · intro h1 h2
    simp only [calculateProactiveDelay]
    rw [if_neg (by omega), if_neg (by omega)]
  · intro h1 h2 h3
    simp only [calculateProactiveDelay]
    rw [if_neg (by omega), if_pos (by omega), if_pos (by omega)]
  · intro h1 h2
    simp only [calculateProactiveDelay]
    rw [if_neg (by simp [PROACTIVE_THRESHOLD]; omega), if_pos (by omega), if_neg (by omega)]

/-- Witness for C5: a concrete state with `remaining = 2 ≤ 3`, reset
3000 ms in the future and jitter 7 gives `max(ceil(3000/2) + 7, 50)
= 1507`. -/
theorem c5_witness :
    calculateProactiveDelay (some ⟨2, 5, 4000, 0⟩) 1000 7 = 1507 := by
  have h := (c5_proactive_delay_characterization ⟨2, 5, 4000, 0⟩ 1000 7 (by omega)).2.2.2.1
    (by decide) (by decide) (by decide)
  rw [h]
  decide

/-- Counterexample to C5 as stated: with `remaining = 0` and the reset
10000 ms in the future the code waits the whole time until reset
(10000 ms), which no jitter in [0, 100) can reconcile with the claim's
formula `max(ceil((resetTime - now) / remaining) + jitter, 50)`. -/
theorem c5_counterexample :
    calculateProactiveDelay (some ⟨0, 0, 10000, 0⟩) 0 0 = 10000 ∧
    ¬ ∃ j, j < 100 ∧
      calculateProactiveDelay (some ⟨0, 0, 10000, 0⟩) 0 0 =
        max (ceilDivNat (10000 - 0) (min 0 0) + j) MIN_REQUEST_SPACING := by
  constructor
  · decide
  · intro ⟨j, hj, habs⟩
    rw [show calculateProactiveDelay (some ⟨0, 0, 10000, 0⟩) 0 0 = 10000 from by decide] at habs
    simp [ceilDivNat, MIN_REQUEST_SPACING] at habs
    omega

/-- Claim C6.  For every 429 response the computed wait equals
`max(retry-after-seconds * 1000, reset-epoch - now, 1000) + jitter` for
the drawn jitter in [0, 100) — in particular it is always at least
1000 ms — and the same request body is resubmitted exactly once per
rejection (a run whose first `k` responses are 429 dispatches exactly
`k + 1` copies of the same body), with no cap on the number of
successive 429 retries (under permanent 429 no dispatch budget ever
completes the run). -/
theorem c6_rate_limit_backoff_and_retry :
    (∀ (retryAfterHeader resetHeader : Option Nat) (now jitter : Nat), jitter < 100 →
      calculateRateLimitDelay retryAfterHeader resetHeader now jitter =
        max (max (match retryAfterHeader with | some sec => (sec : Int) * 1000 | none => 0)
                 (match resetHeader with | some r => (r : Int) - (now : Int) | none => 0))
            1000
          + (jitter : Int) ∧
      (1000 : Int) ≤ calculateRateLimitDelay retryAfterHeader resetHeader now jitter) ∧
    (∀ (route body : String) (responses : Nat → Nat) (k fuel : Nat),
      (∀ i, i < k → responses i = 429) → responses k ≠ 429 →
      ¬(responses k = 409 ∧ route = "projects") → k < fuel →
      rateLimitRequestModel route body responses fuel =
        some (RLResult.completed (responses k) (List.replicate (k + 1) body))) ∧
    (∀ (route body : String) (fuel : Nat),
      rateLimitRequestModel route body (fun _ => 429) fuel = none) := by
  refine ⟨?_, ?_, ?_⟩
  · intro retryAfterHeader resetHeader now jitter _hj
    constructor
    · rfl
    · simp only [calculateRateLimitDelay]
      have h1 : (1000 : Int) ≤
          max (max (match retryAfterHeader with | some sec => (sec : Int) * 1000 | none => 0)
                   (match resetHeader with | some r => (r : Int) - (now : Int) | none => 0))
              1000 :=
        le_max_right _ _
      have h2 : (0 : Int) ≤ (jitter : Int) := Int.ofNat_nonneg jitter
      omega
  · intro route body responses k fuel h1 h2 h3 h4
    exact rateLimitRequestModel_completed route body k fuel responses h1 h2 h3 h4
  · intro route body fuel
    exact rateLimitRequestModel_unbounded route body fuel

/-- Witness for C6: with `retry-after: 2`, reset 5000 at `now = 1000` and
jitter 7 the wait is `max(2000, 4000, 1000) + 7 = 4007 ≥ 1000`; a run
answered 429, 429, then 200 dispatches the same body three times and
completes with 200. -/
theorem c6_witness :
    calculateRateLimitDelay (some 2) (some 5000) 1000 7 = 4007 ∧
    rateLimitRequestModel "flags" "payload" (fun i => if i < 2 then 429 else 200) 5 =
      some (RLResult.completed 200 ["payload", "payload", "payload"]) := by
  constructor
  · have h := (c6_rate_limit_backoff_and_retry.1 (some 2) (some 5000) 1000 7 (by omega)).1
    rw [h]
    decide
  · have h := c6_rate_limit_backoff_and_retry.2.1 "flags" "payload"
      (fun i => if i < 2 then 429 else 200) 2 5
      (by intro i hi; simp [hi]) (by decide) (by decide) (by omega)
    simpa using h

/-- Claim C7.  An HTTP 409 on the `projects` route is fatal: the run
terminates immediately after the single dispatch (the request is never
retried), a fatal outcome arises only on the `projects` route, and any
other response — any status other than 429, including 409 on every other
route — is returned to the caller after exactly one dispatch (recovered
locally, never process-terminating). -/
theorem c7_project_conflict_fatal :
    (∀ (body : String) (responses : Nat → Nat) (fuel : Nat),
      responses 0 = 409 →
      rateLimitRequestModel "projects" body responses (fuel + 1) =
        some (RLResult.fatal [body])) ∧
    (∀ (route body : String) (responses : Nat → Nat) (fuel : Nat) (sent : List String),
      rateLimitRequestModel route body responses fuel = some (RLResult.fatal sent) →
      route = "projects") ∧
    (∀ (route body : String) (responses : Nat → Nat) (fuel : Nat),
      ¬(responses 0 = 409 ∧ route = "projects") → responses 0 ≠ 429 →
      rateLimitRequestModel route body responses (fuel + 1) =
        some (RLResult.completed (responses 0) [body])) := by
  refine ⟨?_, ?_, ?_⟩
  · intro body responses fuel h0
    unfold rateLimitRequestModel
    simp [h0]
  · intro route body responses fuel sent h
    exact rateLimitRequestModel_fatal_route body fuel route responses sent h
  · intro route body responses fuel h1 h2
    have h := rateLimitRequestModel_completed route body 0 (fuel + 1) responses
      (by intro i hi; omega) h2 h1 (Nat.succ_pos fuel)
    simpa using h

/-- Witness for C7: a 409 on `projects` is fatal after one dispatch; the
same 409 on the `flags` route completes normally. -/
theorem c7_witness :
    rateLimitRequestModel "projects" "proj-body" (fun _ => 409) 3 =
      some (RLResult.fatal ["proj-body"]) ∧
    rateLimitRequestModel "flags" "flag-body" (fun _ => 409) 3 =
      some (RLResult.completed 409 ["flag-body"]) := by
  constructor
  · exact c7_project_conflict_fatal.1 "proj-body" (fun _ => 409) 2 rfl
  · exact c7_project_conflict_fatal.2.2 "flags" "flag-body" (fun _ => 409) 2
      (by intro ⟨_, hr⟩; exact absurd hr (by decide)) (by decide)

/-- Claim C10.  `createView` reports success exactly for statuses 200, 201
and 409: a view-key conflict (409) is a success, the per-view step sends
exactly one creation POST for it (no conflict-prefix retry), and the
`ConflictTracker` state is left untouched. -/
theorem c10_view_conflict_is_success (status : Nat) (errorText : String) (tracker : ConflictTracker) :
    ((createViewModel status errorText).success = true ↔
      (status = 200 ∨ status = 201 ∨ status = 409)) ∧
    (migrateViewStep false 409 errorText tracker).result.success = true ∧
    (migrateViewStep false 409 errorText tracker).posts = 1 ∧
    (migrateViewStep false 409 errorText tracker).tracker = tracker := by
  refine ⟨?_, rfl, rfl, rfl⟩
  constructor
  · intro h
    by_contra hc
    push_neg at hc
    simp [createViewModel, isViewCreationSuccess, hc.1, hc.2.1, hc.2.2] at h
  · intro h
    rcases h with h | h | h <;> simp [createViewModel, isViewCreationSuccess, h]

/-- Claim C4.  When the approval-request listing (HTTP 200) contains a
request with status `pending`, `scheduled` or `failed`, the approval
workflow records the pair with no skipped fields and sends no creation
POST — a second request is never created for that (flag, environment). -/
theorem c4_approval_dedup (flagKey env : String) (items : List ApprovalRequestInfo)
    (patchReq : List PatchOp) (variations : List Variation) (postStatus : Nat)
    (r : ApprovalRequestInfo) (hmem : r ∈ items)
    (hactive : r.status = "pending" ∨ r.status = "scheduled" ∨ r.status = "failed") :
    handleApprovalWorkflow flagKey env 200 items patchReq variations postStatus =
      { createPosts := 0, tracked := [(flagKey, env, [])], flagErrorAdded := false } := by
  have hact : isActiveApprovalRequest r = true := by
    rcases hactive with h | h | h <;> simp [isActiveApprovalRequest, h]
  have hfind : findActiveApprovalRequests 200 items = items.filter isActiveApprovalRequest := by
    simp [findActiveApprovalRequests]
  have hlen : 0 < (findActiveApprovalRequests 200 items).length := by
    rw [hfind]
    exact List.length_pos.mpr (fun hnil => by
      have := List.mem_filter.mpr ⟨hmem, hact⟩
      rw [hnil] at this
      simp at this)
  unfold handleApprovalWorkflow
  rw [if_pos hlen]

/-- Witness for C4: one pending request in the listing; no creation POST
and the pair is recorded. -/
theorem c4_witness :
    handleApprovalWorkflow "f1" "prod" 200 [⟨"ar-1", "pending"⟩] [] [] 201 =
      { createPosts := 0, tracked := [("f1", "prod", [])], flagErrorAdded := false } :=
  c4_approval_dedup "f1" "prod" [⟨"ar-1", "pending"⟩] [] [] 201 ⟨"ar-1", "pending"⟩
    (List.mem_singleton.mpr rfl) (Or.inl rfl)

/-- Claim C8 (amended).  `getReport` never mutates the tracker state and is
idempotent (a second call returns the same string), and for every
non-empty resolution sequence the report is the newline-join of a line
list that contains the total count line, the per-resource-type count
lines, and — contiguously and in recording order — the
original-to-resolved mapping lines.  (For an empty sequence the report
is a fixed "no conflicts" message; see the counterexample.) -/
theorem c8_conflict_report (t : ConflictTracker) (hne : t.resolutions ≠ []) :
    (ConflictTracker.getReport t).2 = t ∧
    (ConflictTracker.getReport ((ConflictTracker.getReport t).2)).1 =
      (ConflictTracker.getReport t).1 ∧
    (ConflictTracker.getReport t).1 =
      String.intercalate "\n" (conflictReportLines t.resolutions) ∧
    ("Total conflicts resolved: " ++ toString t.resolutions.length) ∈
      conflictReportLines t.resolutions ∧
    (∀ tc ∈ groupConflictsByType t.resolutions,
      formatTypeCountLine tc ∈ conflictReportLines t.resolutions) ∧
    (∃ pre post, conflictReportLines t.resolutions =
      pre ++ t.resolutions.map formatResolutionLine ++ post) := by
  refine ⟨rfl, rfl, ?_, ?_, ?_, ?_⟩
  · simp only [ConflictTracker.getReport, generateConflictReport]
    rw [if_neg (by simp [hne])]
  · simp [conflictReportLines, createReportHeader]
  · intro tc htc
    have h1 : formatTypeCountLine tc ∈ createByTypeSection (groupConflictsByType t.resolutions) := by
      unfold createByTypeSection
      exact List.mem_cons_of_mem _
        (List.mem_append_left _ (List.mem_map_of_mem formatTypeCountLine htc))
    unfold conflictReportLines
    exact List.mem_append_left _ (List.mem_append_left _ (List.mem_append_right _ h1))
  · refine ⟨createReportHeader t.resolutions.length
      ++ createByTypeSection (groupConflictsByType t.resolutions)
      ++ ["Conflict resolutions:"], [reportDivider ++ "\n"], ?_⟩
    simp [conflictReportLines, createResolutionsSection, List.append_assoc]

/-- Witness for C8 at a one-element resolution list. -/
theorem c8_witness :
    (ConflictTracker.getReport ⟨[⟨"vip", "imported-vip", "segment", "imported-"⟩]⟩).2 =
      (⟨[⟨"vip", "imported-vip", "segment", "imported-"⟩]⟩ : ConflictTracker) ∧
    ("Total conflicts resolved: " ++
        toString ([⟨"vip", "imported-vip", "segment", "imported-"⟩] : List ConflictResolution).length) ∈
      conflictReportLines [⟨"vip", "imported-vip", "segment", "imported-"⟩] := by
  have h := c8_conflict_report ⟨[⟨"vip", "imported-vip", "segment", "imported-"⟩]⟩ (by simp)
  exact ⟨h.1, h.2.2.2.1⟩

/-- Counterexample to C8 as stated: for the empty resolution sequence the
report is the fixed "no conflicts" message, which does not contain the
total count ("Total conflicts resolved: 0" appears nowhere), so the
returned string does not carry the claimed total-count content for
*every* sequence. -/
theorem c8_counterexample :
    (ConflictTracker.getReport ⟨[]⟩).1 = "No conflicts encountered during migration." ∧
    strIncludes (ConflictTracker.getReport ⟨[]⟩).1 "Total conflicts resolved" = false := by
  exact ⟨rfl, by decide⟩

/-- The last (second) iteration of the segment creation loop always
dispatches exactly one more POST of the current key: with
`attemptsDone = 1` no branch retries again. -/
theorem segmentCreateLoopAux_last (pfx : Option String) (origKey : String) (statuses : Nat → Nat)
    (segKey : String) (trace : List CreationEvent) :
    (segmentCreateLoopAux pfx origKey statuses 1 1 segKey trace).trace =
      trace ++ [CreationEvent.posted segKey (statuses 1)] := by
  unfold segmentCreateLoopAux
  by_cases h1 : (statuses 1 == 201 || statuses 1 == 200) = true
  · simp [h1]
  · by_cases h2 : (statuses 1 == 409) = true
    · cases pfx <;> simp [h1, h2]
    · simp [h1, h2]

/-- Trace shape of a segment creation run: either a single POST of the
original key, or (only with a configured prefix) a 409-answered POST of
the original key, one recorded resolution, and one POST of the prefixed
key. -/
theorem segmentCreateLoop_shape (pfx : Option String) (segKey : String) (statuses : Nat → Nat) :
    (segmentCreateLoop pfx segKey statuses).trace = [CreationEvent.posted segKey (statuses 0)] ∨
    (∃ p, pfx = some p ∧
      (segmentCreateLoop pfx segKey statuses).trace =
        [CreationEvent.posted segKey (statuses 0),
         CreationEvent.resolved segKey (applyConflictPrefixKey segKey p),
         CreationEvent.posted (applyConflictPrefixKey segKey p) (statuses 1)]) := by
  unfold segmentCreateLoop
  unfold segmentCreateLoopAux
  by_cases h1 : (statuses 0 == 201 || statuses 0 == 200) = true
  · left; simp [h1]
  · by_cases h2 : (statuses 0 == 409) = true
    · cases pfx with
      | none => left; simp [h1, h2]
      | some p =>
          right
          refine ⟨p, rfl, ?_⟩
          simp [h1, h2, segmentCreateLoopAux_last]
    · left; simp [h1, h2]

/-- The last (second) iteration of the flag creation loop dispatches
exactly one more POST of the current key: with `attemptsDone = 1` no
branch retries again. -/
theorem flagCreateLoopAux_last (pfx : Option String) (origKey : String) (statuses : Nat → Nat)
    (st : FlagProcessState) (hc : st.flagCreated = false) (he : st.flagAlreadyExisted = false) :
    (flagCreateLoopAux pfx origKey statuses 1 1 st).trace =
      st.trace ++ [CreationEvent.posted st.flagKey (statuses 1)] := by
  unfold flagCreateLoopAux
  by_cases h1 : (statuses 1 == 200 || statuses 1 == 201) = true
  · simp [hc, he, h1]
  · by_cases h2 : (statuses 1 == 409) = true
    · cases pfx <;> simp [hc, he, h1, h2]
    · simp [hc, he, h1, h2]

/-- Trace shape of the flag creation loop started on a fresh state
(`flagCreated = flagAlreadyExisted = false`): either one POST of the
current key, or (only with a configured prefix) a 409-answered POST of
the current key, a recorded resolution re-deriving the prefixed key from
the original key, and a POST of the prefixed key. -/
theorem flagCreateLoopAux_shape (pfx : Option String) (origKey : String) (statuses : Nat → Nat)
    (st : FlagProcessState) (hc : st.flagCreated = false) (he : st.flagAlreadyExisted = false) :
    (flagCreateLoopAux pfx origKey statuses 2 0 st).trace =
      st.trace ++ [CreationEvent.posted st.flagKey (statuses 0)] ∨
    (∃ p, pfx = some p ∧
      (flagCreateLoopAux pfx origKey statuses 2 0 st).trace =
        st.trace ++
          [CreationEvent.posted st.flagKey (statuses 0),
           CreationEvent.resolved origKey (applyConflictPrefixKey origKey p),
           CreationEvent.posted (applyConflictPrefixKey origKey p) (statuses 1)]) := by
  unfold flagCreateLoopAux
  by_cases h1 : (statuses 0 == 200 || statuses 0 == 201) = true
  · left; simp [hc, he, h1]
  · by_cases h2 : (statuses 0 == 409) = true
    · cases pfx with
      | none => left; simp [hc, he, h1, h2]
      | some p =>
          right
          refine ⟨p, rfl, ?_⟩
          simp [hc, he, h1, h2, flagCreateLoopAux_last]
    · left; simp [hc, he, h1, h2]

/-- The flag creation loop is a no-op when the flag was already created
(`while (!flagCreated && ...)`). -/
theorem flagCreateLoopAux_created (pfx : Option String) (origKey : String) (statuses : Nat → Nat)
    (remaining attemptsDone : Nat) (st : FlagProcessState) (hc : st.flagCreated = true) :
    flagCreateLoopAux pfx origKey statuses remaining attemptsDone st = st := by
  cases remaining with
  | zero => rfl
  | succ remaining =>
      unfold flagCreateLoopAux
      simp [hc]

/-- The five possible traces of one flag's existence check plus creation
loop: no POST at all (flag already exists, no prefix); one POST of the
original key; original-key POST answered 409 then resolution and a
prefixed POST; pre-check resolution then one prefixed POST; pre-check
resolution, prefixed POST answered 409, a second (duplicate) resolution
and a second prefixed POST. -/
theorem flagMigrationProcess_trace_cases (pfx : Option String) (origKey : String)
    (checkStatus : Option Nat) (statuses : Nat → Nat) :
    (flagMigrationProcess pfx origKey checkStatus statuses).trace = [] ∨
    (flagMigrationProcess pfx origKey checkStatus statuses).trace =
      [CreationEvent.posted origKey (statuses 0)] ∨
    (∃ p, pfx = some p ∧
      ((flagMigrationProcess pfx origKey checkStatus statuses).trace =
         [CreationEvent.posted origKey (statuses 0),
          CreationEvent.resolved origKey (applyConflictPrefixKey origKey p),
          CreationEvent.posted (applyConflictPrefixKey origKey p) (statuses 1)] ∨
       (flagMigrationProcess pfx origKey checkStatus statuses).trace =
         [CreationEvent.resolved origKey (applyConflictPrefixKey origKey p),
          CreationEvent.posted (applyConflictPrefixKey origKey p) (statuses 0)] ∨
       (flagMigrationProcess pfx origKey checkStatus statuses).trace =
         [CreationEvent.resolved origKey (applyConflictPrefixKey origKey p),
          CreationEvent.posted (applyConflictPrefixKey origKey p) (statuses 0),
          CreationEvent.resolved origKey (applyConflictPrefixKey origKey p),
          CreationEvent.posted (applyConflictPrefixKey origKey p) (statuses 1)]) ) := by
  have hfresh : ∀ (st : FlagProcessState), st.flagCreated = false → st.flagAlreadyExisted = false →
      (flagCreateLoopAux pfx origKey statuses 2 0 st).trace =
        st.trace ++ [CreationEvent.posted st.flagKey (statuses 0)] ∨
      (∃ p, pfx = some p ∧
        (flagCreateLoopAux pfx origKey statuses 2 0 st).trace =
          st.trace ++
            [CreationEvent.posted st.flagKey (statuses 0),
             CreationEvent.resolved origKey (applyConflictPrefixKey origKey p),
             CreationEvent.posted (applyConflictPrefixKey origKey p) (statuses 1)]) :=
    fun st hc he => flagCreateLoopAux_shape pfx origKey statuses st hc he
  unfold flagMigrationProcess
  split
  · -- existence check returned 200
    cases pfx with
    | none =>
        left
        rw [flagCreateLoopAux_created _ _ _ _ _ _ rfl]
    | some p =>
        rcases hfresh ⟨applyConflictPrefixKey origKey p, false, origKey, false,
            [CreationEvent.resolved origKey (applyConflictPrefixKey origKey p)]⟩ rfl rfl
          with h | ⟨q, hq, h⟩
        · right; right
          exact ⟨p, rfl, Or.inr (Or.inl (by simpa using h))⟩
        · right; right
          obtain rfl : q = p := by
            injection hq with hpq
            exact hpq.symm
          exact ⟨q, rfl, Or.inr (Or.inr (by simpa using h))⟩
  · -- existence check returned 404
    rcases hfresh ⟨origKey, false, origKey, false, []⟩ rfl rfl with h | ⟨q, hq, h⟩
    · right; left; simpa using h
    · right; right
      exact ⟨q, hq, Or.inl (by simpa using h)⟩
  · -- other status or lookup exception
    rcases hfresh ⟨origKey, false, origKey, false, []⟩ rfl rfl with h | ⟨q, hq, h⟩
    · right; left; simpa using h
    · right; right
      exact ⟨q, hq, Or.inl (by simpa using h)⟩

/-- Claim C3 (amended).  Every resource gets at most two creation POSTs
and is never retried after a second conflict.  A segment additionally
satisfies the claim in full: its first POST always uses the original
key, every POST uses the original or the prefixed key, and at most one
rename is recorded.  A flag may record up to two rename entries (the
pre-check path records one before any POST and a subsequent 409 records
a duplicate), and its first POST need not use the original key; see the
counterexample. -/
theorem c3_creation_attempt_bounds (pfx : Option String) (flagOrigKey segOrigKey : String)
    (checkStatus : Option Nat) (flagStatuses segStatuses : Nat → Nat) :
    (postedEvents (flagMigrationProcess pfx flagOrigKey checkStatus flagStatuses).trace).length ≤ 2 ∧
    (resolvedEvents (flagMigrationProcess pfx flagOrigKey checkStatus flagStatuses).trace).length ≤ 2 ∧
    (postedEvents (segmentCreateLoop pfx segOrigKey segStatuses).trace).length ≤ 2 ∧
    (resolvedEvents (segmentCreateLoop pfx segOrigKey segStatuses).trace).length ≤ 1 ∧
    (postedKeys (segmentCreateLoop pfx segOrigKey segStatuses).trace).head? = some segOrigKey ∧
    (∀ k ∈ postedKeys (segmentCreateLoop pfx segOrigKey segStatuses).trace,
      k = segOrigKey ∨ ∃ p, pfx = some p ∧ k = applyConflictPrefixKey segOrigKey p) := by
  have hseg := segmentCreateLoop_shape pfx segOrigKey segStatuses
  have hflag := flagMigrationProcess_trace_cases pfx flagOrigKey checkStatus flagStatuses
  refine ⟨?_, ?_, ?_, ?_, ?_, ?_⟩
  · rcases hflag with h | h | ⟨p, hp, h | h | h⟩ <;> simp [h, postedEvents]
  · rcases hflag with h | h | ⟨p, hp, h | h | h⟩ <;> simp [h, resolvedEvents]
  · rcases hseg with h | ⟨p, hp, h⟩ <;> simp [h, postedEvents]
  · rcases hseg with h | ⟨p, hp, h⟩ <;> simp [h, resolvedEvents]
  · rcases hseg with h | ⟨p, hp, h⟩ <;> simp [h, postedKeys]
  · rcases hseg with h | ⟨p, hp, h⟩
    · intro k hk
      simp [h, postedKeys] at hk
      exact Or.inl hk
    · intro k hk
      simp [h, postedKeys] at hk
      rcases hk with hk | hk
      · exact Or.inl hk
      · exact Or.inr ⟨p, hp, hk⟩

/-- Counterexample to C3 as stated: with prefix `migrated-`, a flag whose
original and prefixed keys both already exist (pre-check 200, every POST
409) gets **two** recorded renames for the same resource key, and its
first creation POST uses the prefixed key, not the original one. -/
theorem c3_counterexample :
    (resolvedEvents
        (flagMigrationProcess (some "migrated-") "vip" (some 200) (fun _ => 409)).trace).length = 2 ∧
    (postedKeys
        (flagMigrationProcess (some "migrated-") "vip" (some 200) (fun _ => 409)).trace).head? =
      some "migrated-vip" := by
  constructor
  · decide
  · decide

/-- Claim C9.  With a conflict prefix configured and a pre-creation
existence lookup answering 200, the process records the resolution
entry first — before any creation POST — and when the subsequent POST
of the prefixed key succeeds (201) the whole trace is that resolution
followed by the 201 POST: a resolution is recorded for a flag that
never received a 409 from a creation request. -/
theorem c9_precheck_resolution_before_post (p origKey : String) (statuses : Nat → Nat) :
    (∃ rest, (flagMigrationProcess (some p) origKey (some 200) statuses).trace =
      CreationEvent.resolved origKey (applyConflictPrefixKey origKey p) :: rest) ∧
    (statuses 0 = 201 →
      (flagMigrationProcess (some p) origKey (some 200) statuses).trace =
        [CreationEvent.resolved origKey (applyConflictPrefixKey origKey p),
         CreationEvent.posted (applyConflictPrefixKey origKey p) 201] ∧
      ∀ k s, CreationEvent.posted k s ∈
          (flagMigrationProcess (some p) origKey (some 200) statuses).trace → s ≠ 409) := by
  have heq : flagMigrationProcess (some p) origKey (some 200) statuses =
      flagCreateLoopAux (some p) origKey statuses 2 0
        ⟨applyConflictPrefixKey origKey p, false, origKey, false,
         [CreationEvent.resolved origKey (applyConflictPrefixKey origKey p)]⟩ := rfl
  constructor
  · rcases flagCreateLoopAux_shape (some p) origKey statuses
        ⟨applyConflictPrefixKey origKey p, false, origKey, false,
         [CreationEvent.resolved origKey (applyConflictPrefixKey origKey p)]⟩ rfl rfl
      with h | ⟨q, hq, h⟩
    · refine ⟨[CreationEvent.posted (applyConflictPrefixKey origKey p) (statuses 0)], ?_⟩
      rw [heq, h]
      simp
    · obtain rfl : q = p := by
        injection hq with hpq
        exact hpq.symm
      refine ⟨[CreationEvent.posted (applyConflictPrefixKey origKey q) (statuses 0),
               CreationEvent.resolved origKey (applyConflictPrefixKey origKey q),
               CreationEvent.posted (applyConflictPrefixKey origKey q) (statuses 1)], ?_⟩
      rw [heq, h]
      simp
  · intro h201
    have htr : (flagMigrationProcess (some p) origKey (some 200) statuses).trace =
        [CreationEvent.resolved origKey (applyConflictPrefixKey origKey p),
         CreationEvent.posted (applyConflictPrefixKey origKey p) 201] := by
      rw [heq]
      unfold flagCreateLoopAux
      simp [h201]
    refine ⟨htr, ?_⟩
    intro k s hmem
    rw [htr] at hmem
    simp at hmem
    omega

/-- Witness for C9 at concrete inputs. -/
theorem c9_witness :
    (flagMigrationProcess (some "pre-") "vip" (some 200) (fun _ => 201)).trace =
      [CreationEvent.resolved "vip" "pre-vip", CreationEvent.posted "pre-vip" 201] := by
  have h := (c9_precheck_resolution_before_post "pre-" "vip" (fun _ => 201)).2 rfl
  rw [h.1]
  decide

/-- Setting a field is the identity exactly when the field is already
bound (first binding) to that value. -/
theorem setField_eq_self (cfg : List (String × Val)) (f : String) (v : Val) :
    setField cfg f v = cfg ↔ lookupStr cfg f = some v := by
  induction cfg with
  | nil => simp [setField, lookupStr]
  | cons kv rest ih =>
      obtain ⟨k, w⟩ := kv
      by_cases hk : k = f
      · subst hk
        simp [setField, lookupStr]
        constructor
        · intro h; exact h.symm
        · intro h; exact h.symm
      · simp [setField, lookupStr, hk, ih]

/-- On a `replace` of one of the compared fields (`on`, `offVariation`,
`fallthrough`, addressed by a four-component path), the no-op detector
fires exactly when applying the operation would change the
configuration. -/
theorem patchOpDetectsChange_exact (cfg : List (String × Val)) (p : PatchOp)
    (hp : replaceOnComparedField p) :
    patchOpDetectsChange cfg p = true ↔ specApplyPatchOp cfg p ≠ cfg := by
  obtain ⟨hop, hlen, hfield⟩ := hp
  have hnotlt : ¬ (strSplitOnSlash p.path).length < 4 := by omega
  unfold patchOpDetectsChange specApplyPatchOp
  rw [if_neg hnotlt, if_neg hnotlt, hop]
  rcases hfield with hf | hf | hf
  · rw [hf]
    show (lookupStr cfg "on" != some p.value) = true ↔ ¬ setField cfg "on" p.value = cfg
    rw [bne_iff_ne, setField_eq_self]
  · rw [hf]
    show (lookupStr cfg "offVariation" != some p.value) = true ↔
      ¬ setField cfg "offVariation" p.value = cfg
    rw [bne_iff_ne, setField_eq_self]
  · rw [hf]
    show (lookupStr cfg "fallthrough" != some p.value) = true ↔
      ¬ setField cfg "fallthrough" p.value = cfg
    rw [bne_iff_ne, setField_eq_self]

/-- Claim C2 (amended).  The PATCH gate of `makePatchCall` sends the
request iff the detector reports a change; when every operation is a
`replace` of one of the fields the detector actually compares
(`on`, `offVariation`, `fallthrough`), this is exact: the PATCH is
skipped iff every operation leaves the known destination environment
configuration unchanged, and sent iff some operation would change it.
(For other fields the detector is not exact — see the counterexample:
a `replace` of `trackEvents` is never treated as a change, so such a
patch is skipped even when it would change the environment.) -/
theorem c2_noop_detection_exact (destEnvs : List (String × List (String × Val)))
    (env : String) (cfg : List (String × Val)) (ops : List PatchOp)
    (variations : List Variation)
    (hcfg : assocLookup destEnvs env = some cfg)
    (hops : ∀ p ∈ ops, replaceOnComparedField p) :
    makePatchCallSends (some destEnvs) env ops variations = true ↔
      ∃ p ∈ ops, specApplyPatchOp cfg p ≠ cfg := by
  show wouldPatchChangeEnvironment (assocLookup destEnvs env) ops variations = true ↔ _
  rw [hcfg]
  show ops.any (patchOpDetectsChange cfg) = true ↔ _
  rw [List.any_eq_true]
  constructor
  · rintro ⟨p, hmem, hdet⟩
    exact ⟨p, hmem, (patchOpDetectsChange_exact cfg p (hops p hmem)).mp hdet⟩
  · rintro ⟨p, hmem, hchg⟩
    exact ⟨p, hmem, (patchOpDetectsChange_exact cfg p (hops p hmem)).mpr hchg⟩

/-- Witness for C2: a repeated-run configuration where `on` is already
`true`; replacing it with `true` is skipped, replacing it with `false`
is sent. -/
theorem c2_witness :
    makePatchCallSends (some [("prod", [("on", Val.vBool true)])]) "prod"
        [⟨"/environments/prod/on", "replace", Val.vBool true⟩] [] = false ∧
    makePatchCallSends (some [("prod", [("on", Val.vBool true)])]) "prod"
        [⟨"/environments/prod/on", "replace", Val.vBool false⟩] [] = true := by
  constructor
  · have h := c2_noop_detection_exact [("prod", [("on", Val.vBool true)])] "prod"
      [("on", Val.vBool true)] [⟨"/environments/prod/on", "replace", Val.vBool true⟩] []
      (by decide)
      (by intro p hp; rw [List.mem_singleton] at hp; subst hp; decide)
    rcases hb : makePatchCallSends (some [("prod", [("on", Val.vBool true)])]) "prod"
        [⟨"/environments/prod/on", "replace", Val.vBool true⟩] [] with _ | _
    · rfl
    · exfalso
      rcases h.mp hb with ⟨p, hp, hne⟩
      rw [List.mem_singleton] at hp
      subst hp
      exact hne (by decide)
  · exact (c2_noop_detection_exact [("prod", [("on", Val.vBool true)])] "prod"
      [("on", Val.vBool true)] [⟨"/environments/prod/on", "replace", Val.vBool false⟩] []
      (by decide)
      (by intro p hp; rw [List.mem_singleton] at hp; subst hp; decide)).mpr
      ⟨⟨"/environments/prod/on", "replace", Val.vBool false⟩, List.mem_singleton.mpr rfl,
        by decide⟩

/-- Counterexample to C2 as stated: a `replace` of `trackEvents` from
`false` to `true` would change the destination environment, yet the
detector reports no change and the PATCH is skipped. -/
theorem c2_counterexample :
    makePatchCallSends (some [("prod", [("trackEvents", Val.vBool false)])]) "prod"
        [⟨"/environments/prod/trackEvents", "replace", Val.vBool true⟩] [] = false ∧
    specApplyPatchOp [("trackEvents", Val.vBool false)]
        ⟨"/environments/prod/trackEvents", "replace", Val.vBool true⟩ ≠
      [("trackEvents", Val.vBool false)] := by
  constructor
  · decide
  · decide

/-- The translator emits an instruction for an operation exactly when
the spec-side emission condition holds. -/
theorem convertPatch_instruction_isSome (p : PatchOp) (m : Int → Option String) :
    (convertPatchToSemanticInstruction p m).instruction.isSome = specEmitsInstruction m p := by
  unfold convertPatchToSemanticInstruction specEmitsInstruction
  cases htf : truthyStr (extractFieldFromPath p.path) with
  | none => rfl
  | some field =>
      by_cases h1 : (field == "on") = true
      · simp [h1]
      · by_cases h2 : (field == "offVariation") = true
        · simp [h1, h2, convertOffVariationInstruction]
        · by_cases h3 : (field == "fallthrough") = true
          · simp only [h1, h2, h3, Bool.false_eq_true, if_false, if_true]
            unfold convertFallthroughInstruction
            cases objLookup p.value "variation" with
            | some idx => simp
            | none =>
                cases objLookup p.value "rollout" with
                | some r =>
                    by_cases hr : valTruthy r = true
                    · simp [hr]
                    · simp [hr]
                | none => rfl
          · by_cases h4 : (field == "rules") = true
            · simp only [h1, h2, h3, h4, Bool.false_eq_true, if_false, if_true]
              unfold convertRuleInstruction
              by_cases hc : (p.op == "add" && strIncludes p.path "rules/-") = true
              · simp [hc]
              · simp [hc]
            · by_cases h5 : (field == "trackEvents") = true
              · simp [h1, h2, h3, h4, h5]
              · simp [h1, h2, h3, h4, h5]

/-- The translator marks an operation as skipped exactly when its truthy
environment field is none of the four dispatched field names. -/
theorem convertPatch_shouldSkip (p : PatchOp) (m : Int → Option String) :
    (convertPatchToSemanticInstruction p m).shouldSkip =
      (match truthyStr (extractFieldFromPath p.path) with
       | none => false
       | some f => !(f == "on" || f == "offVariation" || f == "fallthrough" || f == "rules")) := by
  unfold convertPatchToSemanticInstruction
  cases htf : truthyStr (extractFieldFromPath p.path) with
  | none => rfl
  | some field =>
      by_cases h1 : (field == "on") = true
      · simp [h1]
      · by_cases h2 : (field == "offVariation") = true
        · simp [h1, h2]
        · by_cases h3 : (field == "fallthrough") = true
          · simp [h1, h2, h3]
          · by_cases h4 : (field == "rules") = true
            · simp [h1, h2, h3, h4]
            · by_cases h5 : (field == "trackEvents") = true
              · simp [h1, h2, h3, h4, h5]
              · simp [h1, h2, h3, h4, h5]

/-- Membership in the insertion-ordered set insert. -/
theorem mem_insertIfAbsent (l : List String) (s x : String) :
    x ∈ insertIfAbsent l s ↔ x ∈ l ∨ x = s := by
  unfold insertIfAbsent
  by_cases h : s ∈ l
  · rw [if_pos h]
    constructor
    · exact Or.inl
    · rintro (hx | rfl)
      · exact hx
      · exact h
  · rw [if_neg h]
    simp

/-- Length of the instruction list accumulated by the conversion fold. -/
theorem convFold_instructions_length (m : Int → Option String) :
    ∀ (ops : List PatchOp) (acc : List Val × List String),
      ((ops.foldl (convStep m) acc).1).length =
        acc.1.length + ops.countP (fun p => specEmitsInstruction m p) := by
  intro ops
  induction ops with
  | nil => intro acc; simp
  | cons p ops ih =>
      intro acc
      have hunf : (convStep m acc p).1 =
          (match (convertPatchToSemanticInstruction p m).instruction with
           | some instruction => acc.1 ++ [instruction]
           | none => acc.1) := rfl
      have hstep : (convStep m acc p).1.length =
          acc.1.length + (if specEmitsInstruction m p = true then 1 else 0) := by
        rw [← convertPatch_instruction_isSome p m, hunf]
        cases hi : (convertPatchToSemanticInstruction p m).instruction <;> simp [hi]
      rw [List.foldl_cons, ih (convStep m acc p), hstep, List.countP_cons]
      cases hemits : specEmitsInstruction m p <;> simp [hemits] <;> omega

/-- Membership in the skipped-field set accumulated by the conversion
fold. -/
theorem convFold_skipped_mem (m : Int → Option String) :
    ∀ (ops : List PatchOp) (acc : List Val × List String) (f : String),
      (f ∈ (ops.foldl (convStep m) acc).2 ↔
        f ∈ acc.2 ∨ ∃ p ∈ ops, specSkipRecorded p f = true) := by
  intro ops
  induction ops with
  | nil => intro acc f; simp
  | cons p ops ih =>
      intro acc f
      have hunf : (convStep m acc p).2 =
          (if (convertPatchToSemanticInstruction p m).shouldSkip = true then
            match truthyStr (extractFieldFromPath p.path) with
            | some field => insertIfAbsent acc.2 field
            | none => acc.2
          else acc.2) := rfl
      have hstep : f ∈ (convStep m acc p).2 ↔ f ∈ acc.2 ∨ specSkipRecorded p f = true := by
        rw [hunf, convertPatch_shouldSkip]
        cases htf : truthyStr (extractFieldFromPath p.path) with
        | none => simp [specSkipRecorded, htf]
        | some fld =>
            by_cases hs :
                (!(fld == "on" || fld == "offVariation" || fld == "fallthrough" || fld == "rules")) = true
            · simp only [hs, if_true, htf, mem_insertIfAbsent]
              constructor
              · rintro (hx | rfl)
                · exact Or.inl hx
                · refine Or.inr ?_
                  simp [specSkipRecorded, htf, hs]
              · rintro (hx | hrec)
                · exact Or.inl hx
                · right
                  simp only [specSkipRecorded, htf, Bool.and_eq_true, beq_iff_eq,
                    Option.some.injEq] at hrec
                  exact hrec.1.symm
            · simp only [hs, Bool.false_eq_true, if_false]
              constructor
              · exact Or.inl
              · rintro (hx | hrec)
                · exact hx
                · exfalso
                  simp only [specSkipRecorded, htf, Bool.and_eq_true, beq_iff_eq,
                    Option.some.injEq] at hrec
                  obtain ⟨rfl, hneg⟩ := hrec
                  exact hs hneg
      rw [List.foldl_cons, ih (convStep m acc p) f]
      constructor
      · rintro (hx | ⟨q, hq, hrec⟩)
        · rcases hstep.mp hx with hx2 | hrec
          · exact Or.inl hx2
          · exact Or.inr ⟨p, List.mem_cons_self p ops, hrec⟩
        · exact Or.inr ⟨q, List.mem_cons_of_mem p hq, hrec⟩
      · rintro (hx | ⟨q, hq, hrec⟩)
        · exact Or.inl (hstep.mpr (Or.inl hx))
        · rcases List.mem_cons.mp hq with rfl | hq2
          · exact Or.inl (hstep.mpr (Or.inr hrec))
          · exact Or.inr ⟨q, hq2, hrec⟩

/-- Claim C1 (amended).  For every patch list and variations array the
translation emits exactly one instruction per operation satisfying the
spec-side emission condition (field `on` always; `offVariation` when the
index resolves to a truthy identifier; `fallthrough` when the direct
variation resolves or, absent a `variation` key, a truthy rollout is
given; `rules` when the operation is an `add` at the rules-append
marker), and `skippedFields` records exactly the truthy environment
fields outside `{on, offVariation, fallthrough, rules}`.  In particular
a `rules` operation that is not an append emits zero instructions but is
*not* recorded in `skippedFields` — see the counterexample. -/
theorem c1_translation_characterization (ops : List PatchOp) (envKey : String)
    (variations : List Variation) :
    (convertToSemanticPatch ops envKey variations).instructions.length =
      ops.countP (fun p => specEmitsInstruction (createVariationMapper variations) p) ∧
    (∀ f, f ∈ (convertToSemanticPatch ops envKey variations).skippedFields ↔
      ∃ p ∈ ops, specSkipRecorded p f = true) := by
  constructor
  · have h := convFold_instructions_length (createVariationMapper variations) ops ([], [])
    simpa [convertToSemanticPatch] using h
  · intro f
    have h := convFold_skipped_mem (createVariationMapper variations) ops ([], []) f
    simpa [convertToSemanticPatch] using h

/-- Counterexample to C1 as stated: a `replace` of the `rules` field is
outside the claim's supported set, emits zero instructions, but its
field name is **not** recorded in `skippedFields` (the translation
returns empty instructions and empty skipped fields). -/
theorem c1_counterexample :
    truthyStr (extractFieldFromPath "/environments/production/rules") = some "rules" ∧
    ¬ claimSupportedOperation ⟨"/environments/production/rules", "replace", Val.vArr []⟩ "rules" ∧
    convertToSemanticPatch [⟨"/environments/production/rules", "replace", Val.vArr []⟩]
        "production" [] =
      { instructions := [], skippedFields := [] } := by
  refine ⟨by decide, by decide, by decide⟩

/-- Witness for C1 at a concrete one-operation patch list. -/
theorem c1_witness :
    (convertToSemanticPatch [⟨"/environments/prod/on", "replace", Val.vBool true⟩]
        "prod" []).instructions.length =
      List.countP (fun p => specEmitsInstruction (createVariationMapper []) p)
        [⟨"/environments/prod/on", "replace", Val.vBool true⟩] ∧
    ("trackEvents" ∈ (convertToSemanticPatch
        [⟨"/environments/prod/trackEvents", "replace", Val.vBool true⟩] "prod" []).skippedFields ↔
      ∃ p ∈ [(⟨"/environments/prod/trackEvents", "replace", Val.vBool true⟩ : PatchOp)],
        specSkipRecorded p "trackEvents" = true) :=
  ⟨(c1_translation_characterization
      [⟨"/environments/prod/on", "replace", Val.vBool true⟩] "prod" []).1,
   (c1_translation_characterization
      [⟨"/environments/prod/trackEvents", "replace", Val.vBool true⟩] "prod" []).2 "trackEvents"⟩

/-- Witness for C3 at concrete inputs: one segment whose key conflicts
twice with prefix `imported-`. -/
theorem c3_witness :
    (postedEvents (segmentCreateLoop (some "imported-") "vip" (fun _ => 409)).trace).length ≤ 2 ∧
    (resolvedEvents (segmentCreateLoop (some "imported-") "vip" (fun _ => 409)).trace).length ≤ 1 ∧
    (postedKeys (segmentCreateLoop (some "imported-") "vip" (fun _ => 409)).trace).head? =
      some "vip" := by
  have h := c3_creation_attempt_bounds (some "imported-") "vip" "vip" (some 404)
    (fun _ => 409) (fun _ => 409)
  exact ⟨h.2.2.1, h.2.2.2.1, h.2.2.2.2.1⟩

/-- Witness for C10: a 409 view-creation response is a success. -/
theorem c10_witness :
    (createViewModel 409 "key already exists").success = true :=
  (c10_view_conflict_is_success 409 "key already exists" ⟨[]⟩).1.mpr (Or.inr (Or.inr rfl))
